import Mathlib

/-!
Shallow embedding of the `polymorphic_constant` procedural macro
(`src/lib.rs` of the `polymorphic-constant` crate) and proofs about it.

Tokens of `proc_macro2::TokenStream` are modelled by the inductive `Tok`
(identifiers, literals, punctuation, and delimited groups); a token stream
is a `List Tok`.  The macro's data model (`PolymorphicVariant`,
`PolymorphicType`, `PolymorphicConstant`), its substitution dictionary
(`HashMap<String, TokenStream>`), the substitution pass
(`PolymorphicConstant::init_parser`), the code emitter
(`PolymorphicConstant::to_tokens`) and the top-level driver
(`polymorphic_constant`) are translated below.  The emitted Rust items are
modelled structurally (`Item`) together with their token rendering
(`itemTokens`), mirroring the `quote!` template of `to_tokens`.
-/

/-- Delimiters of a `proc_macro2::Group`. -/
inductive Delim where
  | paren
  | bracket
  | brace
deriving DecidableEq

/-- One `proc_macro2::TokenTree`: identifier, literal, punctuation, or
delimited group.  Multi-character punctuation such as `::` is modelled as a
single `punct` token. -/
inductive Tok where
  | ident (s : String)
  | lit (s : String)
  | punct (s : String)
  | group (d : Delim) (ts : List Tok)

/-- A `syn::Type` as the macro builds them: either one of the
`parse_quote! { ::std::num::NonZeroXxx }` paths of the non-zero table, or a
verbatim identifier `parse_quote! { #name }`. -/
inductive RustType where
  | stdNonZero (name : String)
  | plain (name : String)
deriving DecidableEq

/-- The two values taken by the `ExpWrapper` function pointer in
`PolymorphicVariant`: `PolymorphicVariant::null_wrapper` or
`PolymorphicVariant::nz_wrapper`. -/
inductive InitWrapper where
  | null_wrapper
  | nz_wrapper
deriving DecidableEq

/-- Token rendering of a modelled `syn::Type`. -/
def tyTokens : RustType → List Tok
  | RustType.stdNonZero n =>
      [Tok.punct "::", Tok.ident "std", Tok.punct "::", Tok.ident "num",
       Tok.punct "::", Tok.ident n]
  | RustType.plain n => [Tok.ident n]

/-- Holds a single type variant of a constant (struct `PolymorphicVariant`). -/
structure PolymorphicVariant where
  name : String
  token : RustType
  init_wrapper : InitWrapper

/-- `PolymorphicVariant::null_wrapper`: emits `unsafe { (#expr) as #ty }`. -/
def PolymorphicVariant.null_wrapper (expr : List Tok) (ty : RustType) : List Tok :=
  [Tok.ident "unsafe",
   Tok.group Delim.brace ([Tok.group Delim.paren expr, Tok.ident "as"] ++ tyTokens ty)]

/-- `PolymorphicVariant::nz_wrapper`: emits `unsafe { #ty::new_unchecked(#expr) }`. -/
def PolymorphicVariant.nz_wrapper (expr : List Tok) (ty : RustType) : List Tok :=
  [Tok.ident "unsafe",
   Tok.group Delim.brace
     (tyTokens ty ++ [Tok.punct "::", Tok.ident "new_unchecked", Tok.group Delim.paren expr])]

/-- Dispatch on the stored function pointer. -/
def applyWrapper : InitWrapper → List Tok → RustType → List Tok
  | InitWrapper.null_wrapper => PolymorphicVariant.null_wrapper
  | InitWrapper.nz_wrapper => PolymorphicVariant.nz_wrapper

/-- `PolymorphicVariant::get_init`: `(self.init_wrapper)(expr, self.token.clone())`. -/
def PolymorphicVariant.get_init (v : PolymorphicVariant) (expr : List Tok) : List Tok :=
  applyWrapper v.init_wrapper expr v.token

/-- `<PolymorphicVariant as Parse>::parse`, given the already-read identifier:
the fixed 12-entry non-zero table, with every other tag used verbatim under
`null_wrapper`.  A Rust `match` on `&str` is an equality-test chain. -/
def PolymorphicVariant.parse (name : String) : PolymorphicVariant :=
  if name = "nz_i8" then ⟨name, RustType.stdNonZero "NonZeroI8", InitWrapper.nz_wrapper⟩
  else if name = "nz_i16" then ⟨name, RustType.stdNonZero "NonZeroI16", InitWrapper.nz_wrapper⟩
  else if name = "nz_i32" then ⟨name, RustType.stdNonZero "NonZeroI32", InitWrapper.nz_wrapper⟩
  else if name = "nz_i64" then ⟨name, RustType.stdNonZero "NonZeroI64", InitWrapper.nz_wrapper⟩
  else if name = "nz_i128" then ⟨name, RustType.stdNonZero "NonZeroI128", InitWrapper.nz_wrapper⟩
  else if name = "nz_isize" then ⟨name, RustType.stdNonZero "NonZeroIsize", InitWrapper.nz_wrapper⟩
  else if name = "nz_u8" then ⟨name, RustType.stdNonZero "NonZeroU8", InitWrapper.nz_wrapper⟩
  else if name = "nz_u16" then ⟨name, RustType.stdNonZero "NonZeroU16", InitWrapper.nz_wrapper⟩
  else if name = "nz_u32" then ⟨name, RustType.stdNonZero "NonZeroU32", InitWrapper.nz_wrapper⟩
  else if name = "nz_u64" then ⟨name, RustType.stdNonZero "NonZeroU64", InitWrapper.nz_wrapper⟩
  else if name = "nz_u128" then ⟨name, RustType.stdNonZero "NonZeroU128", InitWrapper.nz_wrapper⟩
  else if name = "nz_usize" then ⟨name, RustType.stdNonZero "NonZeroUsize", InitWrapper.nz_wrapper⟩
  else ⟨name, RustType.plain name, InitWrapper.null_wrapper⟩

/-- Holds all type variants of a constant (struct `PolymorphicType`). -/
structure PolymorphicType where
  variants : List PolymorphicVariant

/-- `<PolymorphicType as Parse>::parse`: the `TYPE | TYPE | TYPE` loop, given
the pipe-separated tag identifiers. -/
def PolymorphicType.parse (tags : List String) : PolymorphicType :=
  ⟨tags.map PolymorphicVariant.parse⟩

/-- Holds all the information related to a constant
(struct `PolymorphicConstant`).  Attributes and the visibility are opaque
token sequences; the initializer `Expr` is modelled by its token stream,
which is the only way `to_tokens` consumes it. -/
structure PolymorphicConstant where
  attributes : List (List Tok)
  visibility : List Tok
  const_name : String
  struct_name : String
  types : PolymorphicType
  init : List Tok

/-- The substitution dictionary `type ConstDic = HashMap<String, TokenStream>`,
modelled as an association list with at most one entry per key. -/
abbrev ConstDic := List (String × List Tok)

/-- `HashMap::get`. -/
def dicGet : ConstDic → String → Option (List Tok)
  | [], _ => none
  | (k, v) :: rest, s => if k = s then some v else dicGet rest s

/-- `HashMap::insert`: replaces the value of an existing key, otherwise adds
the entry. -/
def dicInsert : ConstDic → String → List Tok → ConstDic
  | [], s, v => [(s, v)]
  | (k, w) :: rest, s, v => if k = s then (s, v) :: rest else (k, w) :: dicInsert rest s v

/-- `PolymorphicConstant::init_parser`: maps over the top-level tokens of the
initializer's token stream, replacing an identifier found in the dictionary
by the stored token stream, and flattens the result. -/
def initParser (init : List Tok) (dictionary : ConstDic) : List Tok :=
  (init.map fun token =>
    match token with
    | Tok.ident s =>
      match dicGet dictionary s with
      | some expr => expr
      | none => [token]
    | _ => [token]).flatten

/-- Modelled from the spec: upper-camel-casing as performed by the external
`convert_case` library (`to_case(Case::UpperCamel)`), which is a dependency,
not code of this repository.  Words are split on underscore, hyphen, space
and lower-to-upper boundaries.  `flushWord` emits the (reversed) word
accumulator when it is non-empty. -/
def flushWord (acc : List Char) : List (List Char) :=
  if acc.isEmpty then [] else [acc.reverse]

/-- Modelled from the spec: word splitter of the upper-camel-case transform
(see `flushWord`). -/
def splitWordsAux : List Char → List Char → List (List Char)
  | [], acc => flushWord acc
  | c :: rest, acc =>
    if c = '_' ∨ c = '-' ∨ c = ' ' then
      flushWord acc ++ splitWordsAux rest []
    else
      match acc with
      | [] => splitWordsAux rest [c]
      | p :: _ =>
        if p.isLower && c.isUpper then acc.reverse :: splitWordsAux rest [c]
        else splitWordsAux rest (c :: acc)

/-- Modelled from the spec: capitalize one word (first character upper-cased,
the rest lower-cased). -/
def capitalizeWord : List Char → List Char
  | [] => []
  | c :: rest => c.toUpper :: rest.map Char.toLower

/-- Modelled from the spec: `s.to_case(Case::UpperCamel)` of the external
`convert_case` library. -/
def toUpperCamel (s : String) : String :=
  String.mk (((splitWordsAux s.toList []).map capitalizeWord).flatten)

/-- `<PolymorphicConstant as Parse>::parse`, given the already-tokenized
components of one declaration: derives the struct name
`format_ident!("PolymorphicConstant{}", const_name.to_case(Case::UpperCamel))`
and resolves the pipe-separated type tags. -/
def PolymorphicConstant.parseDecl (attributes : List (List Tok)) (visibility : List Tok)
    (const_name : String) (tags : List String) (init : List Tok) : PolymorphicConstant :=
  { attributes := attributes
    visibility := visibility
    const_name := const_name
    struct_name := "PolymorphicConstant" ++ toUpperCamel const_name
    types := PolymorphicType.parse tags
    init := init }

/-- The generated struct definition of the `quote!` template in `to_tokens`:
`#(#attributes)* #visibility struct #struct_name { #(#member_names: #variant_types,)* }`. -/
structure StructDef where
  attributes : List (List Tok)
  visibility : List Tok
  name : String
  fields : List (String × RustType)

/-- One generated conversion of the `quote!` template:
`impl ::core::convert::Into<#ty> for #struct_name { fn into(self) -> #ty { self.#member } }`. -/
structure IntoImpl where
  target : RustType
  struct_name : String
  member : String

/-- The generated constant definition of the `quote!` template:
`#visibility const #const_name: #struct_name = #struct_name { #(#member_names: #variant_inits,)* };`. -/
structure ConstDef where
  visibility : List Tok
  name : String
  struct_name : String
  fields : List (String × List Tok)

/-- One emitted top-level Rust item. -/
inductive Item where
  | structDef (s : StructDef)
  | intoImpl (i : IntoImpl)
  | constDef (c : ConstDef)

/-- `PolymorphicConstant::to_tokens`: substitutes the initializer against the
current dictionary, then inserts the constant's name mapped to the original
initializer wrapped in parentheses (`quote! {(#init)}`), and emits the
struct, the `Into` impls and the constant, following the `quote!` template. -/
def PolymorphicConstant.to_tokens (pc : PolymorphicConstant) (dictionary : ConstDic) :
    List Item × ConstDic :=
  let init_replaced := initParser pc.init dictionary
  let dictionary := dicInsert dictionary pc.const_name [Tok.group Delim.paren pc.init]
  let member_names := pc.types.variants.map (fun t => t.name)
  let variant_types := pc.types.variants.map (fun t => t.token)
  let variant_inits := pc.types.variants.map (fun t => t.get_init init_replaced)
  (Item.structDef
      { attributes := pc.attributes
        visibility := pc.visibility
        name := pc.struct_name
        fields := member_names.zip variant_types }
    :: ((member_names.zip variant_types).map fun p =>
          Item.intoImpl { target := p.2, struct_name := pc.struct_name, member := p.1 })
    ++ [Item.constDef
          { visibility := pc.visibility
            name := pc.const_name
            struct_name := pc.struct_name
            fields := member_names.zip variant_inits }],
   dictionary)

/-- The fold of `polymorphic_constant` over the declarations:
`constants.into_iter().map(|pc| pc.to_tokens(&mut dictionary)).flatten()`,
threading the one mutable dictionary left-to-right. -/
def processConstants : List PolymorphicConstant → ConstDic → List Item × ConstDic
  | [], dic => ([], dic)
  | pc :: rest, dic =>
    let r := pc.to_tokens dic
    let r' := processConstants rest r.2
    (r.1 ++ r'.1, r'.2)

/-- Token rendering of one struct field `#name: #ty,`. -/
def fieldTokens (p : String × RustType) : List Tok :=
  Tok.ident p.1 :: Tok.punct ":" :: tyTokens p.2 ++ [Tok.punct ","]

/-- Token rendering of one constant-initializer field `#name: #init,`. -/
def initFieldTokens (p : String × List Tok) : List Tok :=
  Tok.ident p.1 :: Tok.punct ":" :: p.2 ++ [Tok.punct ","]

/-- Token rendering of one emitted item, following the `quote!` template of
`to_tokens` literally. -/
def itemTokens : Item → List Tok
  | Item.structDef s =>
      s.attributes.flatten ++ s.visibility ++
      [Tok.ident "struct", Tok.ident s.name,
       Tok.group Delim.brace (s.fields.map fieldTokens).flatten]
  | Item.intoImpl i =>
      [Tok.ident "impl", Tok.punct "::", Tok.ident "core", Tok.punct "::",
       Tok.ident "convert", Tok.punct "::", Tok.ident "Into", Tok.punct "<"] ++
      tyTokens i.target ++
      [Tok.punct ">", Tok.ident "for", Tok.ident i.struct_name,
       Tok.group Delim.brace
         ([Tok.ident "fn", Tok.ident "into", Tok.group Delim.paren [Tok.ident "self"],
           Tok.punct "->"] ++ tyTokens i.target ++
          [Tok.group Delim.brace [Tok.ident "self", Tok.punct ".", Tok.ident i.member]])]
  | Item.constDef c =>
      c.visibility ++
      [Tok.ident "const", Tok.ident c.name, Tok.punct ":", Tok.ident c.struct_name,
       Tok.punct "=", Tok.ident c.struct_name,
       Tok.group Delim.brace (c.fields.map initFieldTokens).flatten, Tok.punct ";"]

/-- The `proc_macro` entry point `polymorphic_constant`: parses the
declaration list, threads the dictionary through `to_tokens`, and emits the
leading `quote! { const fn }` tokens chained before the concatenated
fragments, exactly as written at the end of `src/lib.rs`. -/
def polymorphic_constant (constants : List PolymorphicConstant) : List Tok :=
  [Tok.ident "const", Tok.ident "fn"] ++
    ((processConstants constants []).1.map itemTokens).flatten

/-- Projection keeping only the emitted constant definitions. -/
def constDefsOf (items : List Item) : List ConstDef :=
  items.filterMap fun i =>
    match i with
    | Item.constDef c => some c
    | _ => none

/-- Modelled from the spec: decimal digit value, used by the model of the
host language's literal parser. -/
def digitVal (c : Char) : Option Nat :=
  if c = '0' then some 0 else if c = '1' then some 1 else if c = '2' then some 2
  else if c = '3' then some 3 else if c = '4' then some 4 else if c = '5' then some 5
  else if c = '6' then some 6 else if c = '7' then some 7 else if c = '8' then some 8
  else if c = '9' then some 9 else none

/-- Modelled from the spec: decimal accumulation for integer literals. -/
def decodeDigits : List Char → Nat → Option Nat
  | [], acc => some acc
  | c :: rest, acc =>
    match digitVal c with
    | some d => decodeDigits rest (acc * 10 + d)
    | none => none

/-- Modelled from the spec: the host language's parsing of an integer
literal.  Float literals (containing a dot) are not integer literals and
yield `none`. -/
def decodeIntLit (s : String) : Option Int :=
  match s.toList with
  | [] => none
  | l => (decodeDigits l 0).map Int.ofNat

/-- Parsing modes of the modelled host constant evaluator: a full
sum-of-products expression, a product, a single atom, or the trailing parts
of a sum or product carrying the accumulated value. -/
inductive PKind where
  | sum
  | prod
  | atom
  | sumRest
  | prodRest

/-- Modelled from the spec: the host language's compile-time constant
evaluator (spec section 6, the required external collaborator), restricted
to integer arithmetic with `+`, binary and unary `-`, `*` and parenthesized
groups.  Fuel-indexed so that every recursion is structural. -/
def pTok : Nat → PKind → Int → List Tok → Option (Int × List Tok)
  | 0, _, _, _ => none
  | f + 1, PKind.atom, _, toks =>
    match toks with
    | Tok.punct "-" :: rest =>
      match pTok f PKind.atom 0 rest with
      | some (v, r) => some (-v, r)
      | none => none
    | Tok.lit s :: rest =>
      match decodeIntLit s with
      | some n => some (n, rest)
      | none => none
    | Tok.group Delim.paren inner :: rest =>
      match pTok f PKind.sum 0 inner with
      | some (v, List.nil) => some (v, rest)
      | _ => none
    | _ => none
  | f + 1, PKind.prod, _, toks =>
    match pTok f PKind.atom 0 toks with
    | some (v, r) => pTok f PKind.prodRest v r
    | none => none
  | f + 1, PKind.prodRest, acc, toks =>
    match toks with
    | Tok.punct "*" :: rest =>
      match pTok f PKind.atom 0 rest with
      | some (v, r) => pTok f PKind.prodRest (acc * v) r
      | none => none
    | _ => some (acc, toks)
  | f + 1, PKind.sum, _, toks =>
    match pTok f PKind.prod 0 toks with
    | some (v, r) => pTok f PKind.sumRest v r
    | none => none
  | f + 1, PKind.sumRest, acc, toks =>
    match toks with
    | Tok.punct "+" :: rest =>
      match pTok f PKind.prod 0 rest with
      | some (v, r) => pTok f PKind.sumRest (acc + v) r
      | none => none
    | Tok.punct "-" :: rest =>
      match pTok f PKind.prod 0 rest with
      | some (v, r) => pTok f PKind.sumRest (acc - v) r
      | none => none
    | _ => some (acc, toks)

/-- Modelled from the spec: evaluate a complete initializer token sequence
to an integer, when the evaluator supports it. -/
def evalInit (toks : List Tok) : Option Int :=
  match pTok 1000 PKind.sum 0 toks with
  | some (v, List.nil) => some v
  | _ => none

/-- Modelled from the spec: the integer range of the primitive target types
whose bounds the host compiler checks.  Pointer-sized types are
platform-dependent and left out of the model. -/
def intTypeRange (name : String) : Option (Int × Int) :=
  if name = "i8" then some (-128, 127)
  else if name = "i16" then some (-32768, 32767)
  else if name = "i32" then some (-2147483648, 2147483647)
  else if name = "i64" then some (-9223372036854775808, 9223372036854775807)
  else if name = "i128" then some (-170141183460469231731687303715884105728,
                                   170141183460469231731687303715884105727)
  else if name = "u8" then some (0, 255)
  else if name = "u16" then some (0, 65535)
  else if name = "u32" then some (0, 4294967295)
  else if name = "u64" then some (0, 18446744073709551615)
  else if name = "u128" then some (0, 340282366920938463463374607431768211455)
  else none

/-- Modelled from the spec: the integer range of the value wrapped by a
`::std::num::NonZeroXxx` type (the non-zero requirement is checked
separately). -/
def nonZeroRange (name : String) : Option (Int × Int) :=
  if name = "NonZeroI8" then some (-128, 127)
  else if name = "NonZeroI16" then some (-32768, 32767)
  else if name = "NonZeroI32" then some (-2147483648, 2147483647)
  else if name = "NonZeroI64" then some (-9223372036854775808, 9223372036854775807)
  else if name = "NonZeroI128" then some (-170141183460469231731687303715884105728,
                                          170141183460469231731687303715884105727)
  else if name = "NonZeroU8" then some (0, 255)
  else if name = "NonZeroU16" then some (0, 65535)
  else if name = "NonZeroU32" then some (0, 4294967295)
  else if name = "NonZeroU64" then some (0, 18446744073709551615)
  else if name = "NonZeroU128" then some (0, 340282366920938463463374607431768211455)
  else none

/-- Range information of a resolved type under a `DirectCast` (`as`) cast. -/
def intTypeRangeOf : RustType → Option (Int × Int)
  | RustType.plain n => intTypeRange n
  | RustType.stdNonZero _ => none

/-- Range information of a resolved non-zero wrapper type. -/
def nonZeroRangeOf : RustType → Option (Int × Int)
  | RustType.stdNonZero n => nonZeroRange n
  | RustType.plain _ => none

/-- Modelled from the spec: the host compiler's compile-time translation of
one emitted field initializer (spec sections 4.5, 6 and 7: the external
literal/type checker turns the emitted casts and constructions into hard
build failures on invalid input).  `unsafe { (expr) as ty }` translates iff
the expression's value is exactly representable in `ty`; `unsafe {
::std::num::NonZeroXxx::new_unchecked(expr) }` translates iff the value is
non-zero and in range.  `none` is a build failure; `some v` is the value of
the successfully translated constant field. -/
def hostTranslateInit (toks : List Tok) : Option Int :=
  match toks with
  | [Tok.ident "unsafe", Tok.group Delim.brace inner] =>
    match inner with
    | [Tok.group Delim.paren expr, Tok.ident "as", Tok.ident tyname] =>
      match intTypeRange tyname, evalInit expr with
      | some (lo, hi), some v => if lo ≤ v ∧ v ≤ hi then some v else none
      | _, _ => none
    | [Tok.punct "::", Tok.ident "std", Tok.punct "::", Tok.ident "num", Tok.punct "::",
       Tok.ident nzname, Tok.punct "::", Tok.ident "new_unchecked",
       Tok.group Delim.paren expr] =>
      match nonZeroRange nzname, evalInit expr with
      | some (lo, hi), some v => if v ≠ 0 ∧ lo ≤ v ∧ v ≤ hi then some v else none
      | _, _ => none
    | _ => none
  | _ => none

/-- Fuel-indexed check whether a token sequence contains a bare identifier
with the given spelling, descending into delimited groups.  Used to state
substitution properties. -/
def containsIdent : Nat → List Tok → String → Bool
  | 0, _, _ => false
  | _ + 1, [], _ => false
  | f + 1, Tok.ident a :: rest, s => a == s || containsIdent f rest s
  | f + 1, Tok.group _ ts :: rest, s => containsIdent f ts s || containsIdent f rest s
  | f + 1, _ :: rest, s => containsIdent f rest s

/-- Declaration `const X: i32 = 5;`. -/
def declX : PolymorphicConstant :=
  PolymorphicConstant.parseDecl [] [] "X" ["i32"] [Tok.lit "5"]

/-- Declaration `const A: i32 = 5;`. -/
def declA : PolymorphicConstant :=
  PolymorphicConstant.parseDecl [] [] "A" ["i32"] [Tok.lit "5"]

/-- Declaration `const B: i32 = A * 2;`. -/
def declB : PolymorphicConstant :=
  PolymorphicConstant.parseDecl [] [] "B" ["i32"] [Tok.ident "A", Tok.punct "*", Tok.lit "2"]

/-- Declaration `const A: i32 = 6;` (same constant name as `declA`). -/
def declA6 : PolymorphicConstant :=
  PolymorphicConstant.parseDecl [] [] "A" ["i32"] [Tok.lit "6"]

/-- Declaration `const A: i32 = A;` (its own name inside its initializer). -/
def declASelf : PolymorphicConstant :=
  PolymorphicConstant.parseDecl [] [] "A" ["i32"] [Tok.ident "A"]

/-- Declaration `const FAILS: u8 = -1;` (the doc-test `compile_fail` case for
a negative literal in an unsigned variant). -/
def declFails : PolymorphicConstant :=
  PolymorphicConstant.parseDecl [] [] "FAILS" ["u8"] [Tok.punct "-", Tok.lit "1"]

/-- Declaration `const FAILS: nz_u8 = 0;` (the doc-test `compile_fail` case
for a zero literal in a non-zero variant). -/
def declNzZero : PolymorphicConstant :=
  PolymorphicConstant.parseDecl [] [] "FAILS" ["nz_u8"] [Tok.lit "0"]

theorem initParser_append (xs ys : List Tok) (dic : ConstDic) :
    initParser (xs ++ ys) dic = initParser xs dic ++ initParser ys dic := by
  simp [initParser]

theorem initParser_ident_some (s : String) (e : List Tok) (dic : ConstDic)
    (h : dicGet dic s = some e) : initParser [Tok.ident s] dic = e := by
  simp [initParser, h]

theorem initParser_ident_none (s : String) (dic : ConstDic)
    (h : dicGet dic s = none) : initParser [Tok.ident s] dic = [Tok.ident s] := by
  simp [initParser, h]

theorem initParser_lit (s : String) (dic : ConstDic) :
    initParser [Tok.lit s] dic = [Tok.lit s] := by
  simp [initParser]

theorem initParser_punct (s : String) (dic : ConstDic) :
    initParser [Tok.punct s] dic = [Tok.punct s] := by
  simp [initParser]

theorem initParser_group (d : Delim) (ts : List Tok) (dic : ConstDic) :
    initParser [Tok.group d ts] dic = [Tok.group d ts] := by
  simp [initParser]

theorem dicGet_dicInsert (dic : ConstDic) (k s : String) (v : List Tok) :
    dicGet (dicInsert dic k v) s = if k = s then some v else dicGet dic s := by
  induction dic with
  | nil => simp [dicInsert, dicGet]
  | cons p rest ih =>
    obtain ⟨k', v'⟩ := p
    by_cases hk : k' = k
    · subst hk
      by_cases hs : k' = s <;> simp [dicInsert, dicGet, hs]
    · by_cases hs : k' = s
      · subst hs
        have hks : k ≠ k' := fun h => hk h.symm
        simp [dicInsert, dicGet, hk, hks]
      · simp [dicInsert, dicGet, hk, hs, ih]

theorem to_tokens_snd (pc : PolymorphicConstant) (dic : ConstDic) :
    (pc.to_tokens dic).2 = dicInsert dic pc.const_name [Tok.group Delim.paren pc.init] := rfl

theorem processConstants_append (xs ys : List PolymorphicConstant) (dic : ConstDic) :
    processConstants (xs ++ ys) dic
      = ((processConstants xs dic).1 ++ (processConstants ys (processConstants xs dic).2).1,
         (processConstants ys (processConstants xs dic).2).2) := by
  induction xs generalizing dic with
  | nil => simp [processConstants]
  | cons pc rest ih => simp [processConstants, ih]

theorem dicGet_processConstants_none (l : List PolymorphicConstant) (dic : ConstDic)
    (s : String) (h1 : s ∉ l.map PolymorphicConstant.const_name)
    (h2 : dicGet dic s = none) :
    dicGet (processConstants l dic).2 s = none := by
  induction l generalizing dic with
  | nil => simpa [processConstants]
  | cons pc rest ih =>
    simp only [List.map_cons, List.mem_cons, not_or] at h1
    have hne : pc.const_name ≠ s := fun h => h1.1 h.symm
    have hstep : dicGet (pc.to_tokens dic).2 s = none := by
      rw [to_tokens_snd, dicGet_dicInsert]
      simp [hne, h2]
    simpa [processConstants] using ih (pc.to_tokens dic).2 h1.2 hstep

theorem filterMap_const_none {α β : Type} (l : List α) :
    l.filterMap (fun _ => (none : Option β)) = [] := by
  induction l <;> simp [List.filterMap_cons, *]

/-- Claim C5: the type-shorthand resolver maps exactly the 12 non-zero tags
(nz_i8 .. nz_usize) to the `nz_wrapper` (NonZeroWrap) strategy paired with
the corresponding `::std::num::NonZero*` type, and every other tag is used
verbatim as the resolved type under the `null_wrapper` (DirectCast)
strategy; the resolver is a total function, so it never fails on any tag. -/
theorem C5_resolver_table :
    (PolymorphicVariant.parse "nz_i8"
        = ⟨"nz_i8", RustType.stdNonZero "NonZeroI8", InitWrapper.nz_wrapper⟩
      ∧ PolymorphicVariant.parse "nz_i16"
        = ⟨"nz_i16", RustType.stdNonZero "NonZeroI16", InitWrapper.nz_wrapper⟩
      ∧ PolymorphicVariant.parse "nz_i32"
        = ⟨"nz_i32", RustType.stdNonZero "NonZeroI32", InitWrapper.nz_wrapper⟩
      ∧ PolymorphicVariant.parse "nz_i64"
        = ⟨"nz_i64", RustType.stdNonZero "NonZeroI64", InitWrapper.nz_wrapper⟩
      ∧ PolymorphicVariant.parse "nz_i128"
        = ⟨"nz_i128", RustType.stdNonZero "NonZeroI128", InitWrapper.nz_wrapper⟩
      ∧ PolymorphicVariant.parse "nz_isize"
        = ⟨"nz_isize", RustType.stdNonZero "NonZeroIsize", InitWrapper.nz_wrapper⟩
      ∧ PolymorphicVariant.parse "nz_u8"
        = ⟨"nz_u8", RustType.stdNonZero "NonZeroU8", InitWrapper.nz_wrapper⟩
      ∧ PolymorphicVariant.parse "nz_u16"
        = ⟨"nz_u16", RustType.stdNonZero "NonZeroU16", InitWrapper.nz_wrapper⟩
      ∧ PolymorphicVariant.parse "nz_u32"
        = ⟨"nz_u32", RustType.stdNonZero "NonZeroU32", InitWrapper.nz_wrapper⟩
      ∧ PolymorphicVariant.parse "nz_u64"
        = ⟨"nz_u64", RustType.stdNonZero "NonZeroU64", InitWrapper.nz_wrapper⟩
      ∧ PolymorphicVariant.parse "nz_u128"
        = ⟨"nz_u128", RustType.stdNonZero "NonZeroU128", InitWrapper.nz_wrapper⟩
      ∧ PolymorphicVariant.parse "nz_usize"
        = ⟨"nz_usize", RustType.stdNonZero "NonZeroUsize", InitWrapper.nz_wrapper⟩)
  ∧ ∀ name : String,
      name ∉ (["nz_i8", "nz_i16", "nz_i32", "nz_i64", "nz_i128", "nz_isize",
               "nz_u8", "nz_u16", "nz_u32", "nz_u64", "nz_u128", "nz_usize"] : List String) →
      PolymorphicVariant.parse name
        = ⟨name, RustType.plain name, InitWrapper.null_wrapper⟩ := by
  refine ⟨⟨rfl, rfl, rfl, rfl, rfl, rfl, rfl, rfl, rfl, rfl, rfl, rfl⟩, ?_⟩
  intro name h
  simp only [List.mem_cons, List.not_mem_nil, or_false, not_or] at h
  obtain ⟨h1, h2, h3, h4, h5, h6, h7, h8, h9, h10, h11, h12⟩ := h
  simp [PolymorphicVariant.parse, h1, h2, h3, h4, h5, h6, h7, h8, h9, h10, h11, h12]

/-- Witness for C5 at the tag `f32`, which is not in the non-zero table. -/
theorem C5_resolver_table_witness :
    PolymorphicVariant.parse "f32"
      = ⟨"f32", RustType.plain "f32", InitWrapper.null_wrapper⟩ :=
  C5_resolver_table.2 "f32" (by decide)

/-- Claim C7: for every declaration with K variants, the emitted fragments
are exactly: one struct with K fields, one per declared tag in declaration
order, typed at that tag's resolved type; then one `Into` impl per variant
whose body returns the field of that variant's name; then one constant
definition — and nothing else. -/
theorem C7_emitted_shape (pc : PolymorphicConstant) (dic : ConstDic) :
    (pc.to_tokens dic).1
      = Item.structDef
          { attributes := pc.attributes
            visibility := pc.visibility
            name := pc.struct_name
            fields := pc.types.variants.map fun t => (t.name, t.token) }
        :: (pc.types.variants.map fun t =>
              Item.intoImpl { target := t.token, struct_name := pc.struct_name,
                              member := t.name })
        ++ [Item.constDef
              { visibility := pc.visibility
                name := pc.const_name
                struct_name := pc.struct_name
                fields := pc.types.variants.map fun t =>
                  (t.name, t.get_init (initParser pc.init dic)) }] := by
  simp [PolymorphicConstant.to_tokens, List.zip_map', List.map_map, Function.comp]

/-- Claim C8: the generated type name is derived deterministically from the
constant name alone, by prefixing the fixed marker "PolymorphicConstant" to
the upper-camel-cased constant name; sample instances included. -/
theorem C8_struct_name :
    (∀ (attrs : List (List Tok)) (vis : List Tok) (n : String) (tags : List String)
        (init : List Tok),
      (PolymorphicConstant.parseDecl attrs vis n tags init).struct_name
        = "PolymorphicConstant" ++ toUpperCamel n)
  ∧ declX.struct_name = "PolymorphicConstantX"
  ∧ (PolymorphicConstant.parseDecl [] [] "ascii_line_return" ["u8"] []).struct_name
      = "PolymorphicConstantAsciiLineReturn"
  ∧ (PolymorphicConstant.parseDecl [] [] "PI" ["f32"] []).struct_name
      = "PolymorphicConstantPi" :=
  ⟨fun _ _ _ _ _ => rfl, rfl, rfl, rfl⟩

/-- Claim C9 counterexample: after `const A: i32 = 5; const A: i32 = 6;`,
the dictionary entry for `A` has been overwritten by the second declaration:
`A` resolves to `(6)`, no longer to the earlier-inserted `(5)`. -/
theorem C9_counterexample :
    dicGet (processConstants [declA] []).2 "A"
      = some [Tok.group Delim.paren [Tok.lit "5"]]
  ∧ dicGet (processConstants [declA, declA6] []).2 "A"
      = some [Tok.group Delim.paren [Tok.lit "6"]]
  ∧ initParser [Tok.ident "A"] (processConstants [declA, declA6] []).2
      = [Tok.group Delim.paren [Tok.lit "6"]]
  ∧ (some [Tok.group Delim.paren [Tok.lit "6"]] : Option (List Tok))
      ≠ some [Tok.group Delim.paren [Tok.lit "5"]] :=
  ⟨rfl, rfl, rfl, by simp⟩

/-- Claim C9 (amended): processing one declaration performs exactly one
dictionary update: the declaration's name is mapped to its parenthesized
original initializer — overwriting any existing entry of the same name —
and the entry of every other name is preserved; no entry is ever removed. -/
theorem C9_dictionary_update (pc : PolymorphicConstant) (dic : ConstDic) (k : String) :
    dicGet (pc.to_tokens dic).2 k
      = if pc.const_name = k then some [Tok.group Delim.paren pc.init]
        else dicGet dic k := by
  rw [to_tokens_snd, dicGet_dicInsert]

/-- Claim C2 counterexample: with the dictionary built from
`const A: i32 = 5;` (so `A` is a key, stored as `(5)`, which contains no
identifier `A`), the expression `(A)` — the identifier nested inside a
parenthesized group — is returned unchanged: the bare identifier `A` is
still present in the output, so not every matching identifier nested inside
groups is replaced. -/
theorem C2_counterexample :
    dicGet (processConstants [declA] []).2 "A"
      = some [Tok.group Delim.paren [Tok.lit "5"]]
  ∧ containsIdent 100 [Tok.group Delim.paren [Tok.lit "5"]] "A" = false
  ∧ initParser [Tok.group Delim.paren [Tok.ident "A"]] (processConstants [declA] []).2
      = [Tok.group Delim.paren [Tok.ident "A"]]
  ∧ containsIdent 100 (initParser [Tok.group Delim.paren [Tok.ident "A"]]
      (processConstants [declA] []).2) "A" = true :=
  ⟨rfl, rfl, rfl, rfl⟩

/-- Claim C2 (amended): the substitution engine is a homomorphism on the
top-level token sequence only: a top-level identifier bound in the
dictionary is replaced by its stored token sequence; every other top-level
token — a literal, an operator, an unbound identifier, or an entire
delimited group together with everything nested inside it — passes through
unchanged, so grouping structure is preserved but identifiers nested inside
groups are never substituted. -/
theorem C2_top_level_substitution (xs ys : List Tok) (dic : ConstDic) :
    (initParser (xs ++ ys) dic = initParser xs dic ++ initParser ys dic)
  ∧ (∀ s e, dicGet dic s = some e →
      initParser (xs ++ Tok.ident s :: ys) dic
        = initParser xs dic ++ e ++ initParser ys dic)
  ∧ (∀ s, dicGet dic s = none →
      initParser (xs ++ Tok.ident s :: ys) dic
        = initParser xs dic ++ Tok.ident s :: initParser ys dic)
  ∧ (∀ s, initParser (xs ++ Tok.lit s :: ys) dic
      = initParser xs dic ++ Tok.lit s :: initParser ys dic)
  ∧ (∀ s, initParser (xs ++ Tok.punct s :: ys) dic
      = initParser xs dic ++ Tok.punct s :: initParser ys dic)
  ∧ (∀ d ts, initParser (xs ++ Tok.group d ts :: ys) dic
      = initParser xs dic ++ Tok.group d ts :: initParser ys dic) := by
  have hsplit : ∀ t : Tok, initParser (xs ++ t :: ys) dic
      = initParser xs dic ++ initParser [t] dic ++ initParser ys dic := by
    intro t
    rw [show xs ++ t :: ys = xs ++ [t] ++ ys by simp, initParser_append, initParser_append]
  refine ⟨initParser_append xs ys dic, ?_, ?_, ?_, ?_, ?_⟩
  · intro s e h
    rw [hsplit, initParser_ident_some s e dic h]
  · intro s h
    rw [hsplit, initParser_ident_none s dic h]
    simp
  · intro s
    rw [hsplit, initParser_lit]
    simp
  · intro s
    rw [hsplit, initParser_punct]
    simp
  · intro d ts
    rw [hsplit, initParser_group]
    simp

/-- Witness for C2 (amended) on the dictionary built from
`const A: i32 = 5;`: the bound identifier `A` at top level is replaced by
`(5)`, an unbound identifier `Z` passes through, and a group containing `A`
passes through unchanged. -/
theorem C2_top_level_substitution_witness :
    initParser ([Tok.lit "1"] ++ Tok.ident "A" :: [Tok.lit "2"])
        (processConstants [declA] []).2
      = initParser [Tok.lit "1"] (processConstants [declA] []).2
        ++ [Tok.group Delim.paren [Tok.lit "5"]]
        ++ initParser [Tok.lit "2"] (processConstants [declA] []).2
  ∧ initParser ([Tok.lit "1"] ++ Tok.ident "Z" :: [Tok.lit "2"])
        (processConstants [declA] []).2
      = initParser [Tok.lit "1"] (processConstants [declA] []).2
        ++ Tok.ident "Z" :: initParser [Tok.lit "2"] (processConstants [declA] []).2
  ∧ initParser ([Tok.lit "1"] ++ Tok.group Delim.paren [Tok.ident "A"] :: [Tok.lit "2"])
        (processConstants [declA] []).2
      = initParser [Tok.lit "1"] (processConstants [declA] []).2
        ++ Tok.group Delim.paren [Tok.ident "A"]
          :: initParser [Tok.lit "2"] (processConstants [declA] []).2 :=
  ⟨(C2_top_level_substitution [Tok.lit "1"] [Tok.lit "2"]
      (processConstants [declA] []).2).2.1 "A" [Tok.group Delim.paren [Tok.lit "5"]] rfl,
   (C2_top_level_substitution [Tok.lit "1"] [Tok.lit "2"]
      (processConstants [declA] []).2).2.2.1 "Z" rfl,
   (C2_top_level_substitution [Tok.lit "1"] [Tok.lit "2"]
      (processConstants [declA] []).2).2.2.2.2.2 Delim.paren [Tok.ident "A"]⟩

/-- Claim C3 (code bug): at the declaration list `const X: i32 = 5;` the
macro's output token stream is the leftover tokens `const fn` (from the
`quote! { const fn }` chained at the head of the driver's output) followed
by the concatenated fragments — so it is not exactly the concatenation of
the declarations' emitted fragments. -/
theorem C3_output_has_junk_prefix :
    polymorphic_constant [declX]
      = Tok.ident "const" :: Tok.ident "fn" ::
          ((processConstants [declX] []).1.map itemTokens).flatten
  ∧ polymorphic_constant [declX]
      ≠ ((processConstants [declX] []).1.map itemTokens).flatten :=
  ⟨rfl, fun h => absurd (congrArg List.length h) (by decide)⟩

theorem constDefsOf_to_tokens (pc : PolymorphicConstant) (dic : ConstDic) :
    constDefsOf (pc.to_tokens dic).1
      = [{ visibility := pc.visibility
           name := pc.const_name
           struct_name := pc.struct_name
           fields := pc.types.variants.map fun t =>
             (t.name, t.get_init (initParser pc.init dic)) }] := by
  simp only [PolymorphicConstant.to_tokens, constDefsOf, List.filterMap_cons,
    List.filterMap_append, List.filterMap_map, List.zip_map']
  induction pc.types.variants with
  | nil => rfl
  | cons t rest ih => simp [List.filterMap_cons, ih]

/-- Claim C4: processing a declaration inserts its constant name mapped to
the original, unrewritten initializer wrapped in parentheses, and the
insertion happens only after the declaration's own initializer was
substituted against the incoming dictionary (the emitted constant's fields
are built from `initParser` applied to the dictionary as it was before the
insertion); consequently for `const A: i32 = 5; const B: i32 = A * 2;` the
i32 field of B's emitted instance is initialized from the token sequence
`(5) * 2` and its host-translated value is 10. -/
theorem C4_cross_reference :
    (∀ (pc : PolymorphicConstant) (dic : ConstDic),
      (pc.to_tokens dic).2 = dicInsert dic pc.const_name [Tok.group Delim.paren pc.init]
      ∧ constDefsOf (pc.to_tokens dic).1
        = [{ visibility := pc.visibility
             name := pc.const_name
             struct_name := pc.struct_name
             fields := pc.types.variants.map fun t =>
               (t.name, t.get_init (initParser pc.init dic)) }])
  ∧ initParser declB.init (processConstants [declA] []).2
      = [Tok.group Delim.paren [Tok.lit "5"], Tok.punct "*", Tok.lit "2"]
  ∧ (constDefsOf (processConstants [declA, declB] []).1).map (fun c => c.fields)
      = [[("i32", PolymorphicVariant.null_wrapper [Tok.lit "5"] (RustType.plain "i32"))],
         [("i32", PolymorphicVariant.null_wrapper
             [Tok.group Delim.paren [Tok.lit "5"], Tok.punct "*", Tok.lit "2"]
             (RustType.plain "i32"))]]
  ∧ hostTranslateInit (PolymorphicVariant.null_wrapper
        [Tok.group Delim.paren [Tok.lit "5"], Tok.punct "*", Tok.lit "2"]
        (RustType.plain "i32"))
      = some 10 :=
  ⟨fun pc dic => ⟨rfl, constDefsOf_to_tokens pc dic⟩, rfl, rfl, rfl⟩

/-- Claim C10 counterexample: in `const A: i32 = 5; const A: i32 = A;` the
second declaration's initializer is the single occurrence of its own
constant name `A`, and the substitution pass DOES rewrite it (to the entry
`(5)` inserted by the earlier declaration of the same name): the emitted
instance of the second `A` is initialized from `(5)`, with no occurrence of
the identifier `A` left. -/
theorem C10_counterexample :
    declASelf.const_name = "A"
  ∧ declASelf.init = [Tok.ident "A"]
  ∧ initParser declASelf.init (processConstants [declA] []).2
      = [Tok.group Delim.paren [Tok.lit "5"]]
  ∧ containsIdent 100 (initParser declASelf.init (processConstants [declA] []).2) "A"
      = false
  ∧ (constDefsOf (processConstants [declA, declASelf] []).1).map (fun c => c.fields)
      = [[("i32", PolymorphicVariant.null_wrapper [Tok.lit "5"] (RustType.plain "i32"))],
         [("i32", PolymorphicVariant.null_wrapper [Tok.group Delim.paren [Tok.lit "5"]]
             (RustType.plain "i32"))]] :=
  ⟨rfl, rfl, rfl, rfl, rfl⟩

/-- Claim C10 (amended): each declaration's substitution pass runs against
the dictionary built from the strictly earlier declarations only — the
declaration's own entry is inserted afterwards — so a name that no earlier
declaration bears (in particular the declaration's own name, when no
earlier declaration shares it) is absent from that dictionary and its
occurrences pass through the substitution unchanged. -/
theorem C10_no_self_substitution (pre rest : List PolymorphicConstant)
    (pc : PolymorphicConstant) (xs ys : List Tok)
    (hname : pc.const_name ∉ pre.map PolymorphicConstant.const_name)
    (hinit : pc.init = xs ++ Tok.ident pc.const_name :: ys) :
    (processConstants (pre ++ pc :: rest) []).1
      = (processConstants pre []).1
        ++ ((pc.to_tokens (processConstants pre []).2).1
            ++ (processConstants rest (pc.to_tokens (processConstants pre []).2).2).1)
  ∧ dicGet (processConstants pre []).2 pc.const_name = none
  ∧ initParser pc.init (processConstants pre []).2
      = initParser xs (processConstants pre []).2
        ++ Tok.ident pc.const_name :: initParser ys (processConstants pre []).2 := by
  have hnone : dicGet (processConstants pre []).2 pc.const_name = none :=
    dicGet_processConstants_none pre [] pc.const_name hname rfl
  refine ⟨?_, hnone, ?_⟩
  · rw [processConstants_append]
    simp [processConstants]
  · rw [hinit,
      show xs ++ Tok.ident pc.const_name :: ys = xs ++ [Tok.ident pc.const_name] ++ ys by simp,
      initParser_append, initParser_append,
      initParser_ident_none pc.const_name (processConstants pre []).2 hnone]
    simp

/-- Witness for C10 (amended) with the earlier declaration `const X: i32 = 5;`
and the declaration `const A: i32 = A;`. -/
theorem C10_no_self_substitution_witness :
    dicGet (processConstants [declX] []).2 declASelf.const_name = none
  ∧ initParser declASelf.init (processConstants [declX] []).2
      = initParser [] (processConstants [declX] []).2
        ++ Tok.ident declASelf.const_name :: initParser [] (processConstants [declX] []).2 :=
  ⟨(C10_no_self_substitution [declX] [] declASelf [] [] (by decide) rfl).2.1,
   (C10_no_self_substitution [declX] [] declASelf [] [] (by decide) rfl).2.2⟩

theorem hostTranslateInit_null_wrapper (e : List Tok) (n : String) (lo hi v : Int)
    (h1 : intTypeRange n = some (lo, hi)) (h2 : evalInit e = some v) :
    hostTranslateInit (PolymorphicVariant.null_wrapper e (RustType.plain n))
      = if lo ≤ v ∧ v ≤ hi then some v else none := by
  simp [PolymorphicVariant.null_wrapper, tyTokens, hostTranslateInit, h1, h2]

theorem hostTranslateInit_nz_wrapper (e : List Tok) (n : String) (lo hi v : Int)
    (h1 : nonZeroRange n = some (lo, hi)) (h2 : evalInit e = some v) :
    hostTranslateInit (PolymorphicVariant.nz_wrapper e (RustType.stdNonZero n))
      = if v ≠ 0 ∧ lo ≤ v ∧ v ≤ hi then some v else none := by
  simp [PolymorphicVariant.nz_wrapper, tyTokens, hostTranslateInit, h1, h2]

/-- Claim C1: for every declaration with a DirectCast (`null_wrapper`)
variant whose resolved target type has integer range (lo, hi), if the
substituted initializer evaluates to a value outside that range (for
instance a negative value for an unsigned target, as in `u8 = -1`) then the
host translation of the emitted initializer `unsafe { (expr) as ty }`
fails, and every successful translation yields exactly the evaluated value
— the emitted DirectCast code never silently truncates.  The host checker
is modelled from the spec (`hostTranslateInit`). -/
theorem C1_direct_cast_checked (pc : PolymorphicConstant) (dic : ConstDic)
    (v : PolymorphicVariant) (_hv : v ∈ pc.types.variants)
    (hw : v.init_wrapper = InitWrapper.null_wrapper)
    (lo hi : Int) (hty : intTypeRangeOf v.token = some (lo, hi))
    (value : Int) (hval : evalInit (initParser pc.init dic) = some value) :
    ((value < lo ∨ hi < value) →
      hostTranslateInit (v.get_init (initParser pc.init dic)) = none)
  ∧ ∀ w, hostTranslateInit (v.get_init (initParser pc.init dic)) = some w
      → w = value := by
  cases htok : v.token with
  | stdNonZero n =>
    rw [htok] at hty
    simp [intTypeRangeOf] at hty
  | plain n =>
    rw [htok] at hty
    simp only [intTypeRangeOf] at hty
    have hg : v.get_init (initParser pc.init dic)
        = PolymorphicVariant.null_wrapper (initParser pc.init dic) (RustType.plain n) := by
      simp only [PolymorphicVariant.get_init, hw, htok, applyWrapper]
    rw [hg, hostTranslateInit_null_wrapper (initParser pc.init dic) n lo hi value hty hval]
    constructor
    · intro hout
      rw [if_neg (by omega)]
    · intro w hsome
      by_cases hin : lo ≤ value ∧ value ≤ hi
      · rw [if_pos hin] at hsome
        exact (Option.some.inj hsome).symm
      · rw [if_neg hin] at hsome
        exact absurd hsome (by simp)

/-- Witness for C1 at `const FAILS: u8 = -1;`: the emitted initializer for
the `u8` variant fails host translation. -/
theorem C1_direct_cast_checked_witness :
    hostTranslateInit ((PolymorphicVariant.parse "u8").get_init
      (initParser declFails.init [])) = none :=
  (C1_direct_cast_checked declFails [] (PolymorphicVariant.parse "u8")
    (by simp [declFails, PolymorphicConstant.parseDecl, PolymorphicType.parse])
    rfl 0 255 rfl (-1) rfl).1 (Or.inl (by decide))

/-- Claim C6: for every declaration with a NonZeroWrap (`nz_wrapper`)
variant whose resolved wrapper type wraps an integer range (lo, hi), if the
substituted initializer evaluates to zero or to a value outside the range
then the host translation of the emitted initializer
`unsafe { ::std::num::NonZeroXxx::new_unchecked(expr) }` fails, and every
successful translation yields exactly the evaluated value and that value is
non-zero — no silently-constructed zero value is possible.  The host
checker is modelled from the spec (`hostTranslateInit`). -/
theorem C6_nonzero_checked (pc : PolymorphicConstant) (dic : ConstDic)
    (v : PolymorphicVariant) (_hv : v ∈ pc.types.variants)
    (hw : v.init_wrapper = InitWrapper.nz_wrapper)
    (lo hi : Int) (hty : nonZeroRangeOf v.token = some (lo, hi))
    (value : Int) (hval : evalInit (initParser pc.init dic) = some value) :
    ((value = 0 ∨ value < lo ∨ hi < value) →
      hostTranslateInit (v.get_init (initParser pc.init dic)) = none)
  ∧ ∀ w, hostTranslateInit (v.get_init (initParser pc.init dic)) = some w
      → w = value ∧ w ≠ 0 := by
  cases htok : v.token with
  | plain n =>
    rw [htok] at hty
    simp [nonZeroRangeOf] at hty
  | stdNonZero n =>
    rw [htok] at hty
    simp only [nonZeroRangeOf] at hty
    have hg : v.get_init (initParser pc.init dic)
        = PolymorphicVariant.nz_wrapper (initParser pc.init dic) (RustType.stdNonZero n) := by
      simp only [PolymorphicVariant.get_init, hw, htok, applyWrapper]
    rw [hg, hostTranslateInit_nz_wrapper (initParser pc.init dic) n lo hi value hty hval]
    constructor
    · intro hout
      rw [if_neg (by omega)]
    · intro w hsome
      by_cases hin : value ≠ 0 ∧ lo ≤ value ∧ value ≤ hi
      · rw [if_pos hin] at hsome
        have hvw := Option.some.inj hsome
        exact ⟨hvw.symm, by omega⟩
      · rw [if_neg hin] at hsome
        exact absurd hsome (by simp)

/-- Witness for C6 at `const FAILS: nz_u8 = 0;`: the emitted initializer
for the `nz_u8` variant fails host translation. -/
theorem C6_nonzero_checked_witness :
    hostTranslateInit ((PolymorphicVariant.parse "nz_u8").get_init
      (initParser declNzZero.init [])) = none :=
  (C6_nonzero_checked declNzZero [] (PolymorphicVariant.parse "nz_u8")
    (by simp [declNzZero, PolymorphicConstant.parseDecl, PolymorphicType.parse])
    rfl 0 255 rfl 0 rfl).1 (Or.inl rfl)
